import Mathlib

/-!
Verification of the saru document version-management subsystem.

Embedded sources:
* `apps/snow-leopard/components/document/version-header.tsx` — the restore
  handler `handleRestoreVersion`, the busy flag `isMutating`, and the display
  formatters `formatVersionLabel` / `formatVersionTime`;
* `packages/db/src/schema.ts` — the `DocumentVersion` table declaration;
* the Version Store write path of the spec (§4.1), modelled from the spec where
  the repository code is outside the verified sources.
-/

namespace Saru

/-- JavaScript `x || d` for a nullable string `x`: both `null` and `""` are falsy. -/
def jsOrElse (x : Option String) (d : String) : String :=
  match x with
  | none => d
  | some s => if s = "" then d else s

/-- JavaScript `x || d` for a plain string `x`: `""` is falsy. -/
def jsOrStr (x d : String) : String :=
  if x = "" then d else x

/-- One entry of the `documents` array handed to `VersionHeader`
    (`Array<Document | VersionData>`).  The handler reads `content` and
    `title`; `content` is nullable because the `Document` variant declares
    `content: text('content')` without NOT NULL, while `title` is NOT NULL in
    both variants. -/
structure VersionEntry where
  id : String
  content : Option String
  title : String
  createdAt : Int
  version : Nat
  isCurrent : Bool
deriving DecidableEq, Repr, Inhabited

/-- In-memory document state from the `useDocument` hook, restricted to the
    fields the restore handler reads or writes. -/
structure DocState where
  documentId : String
  content : String
  title : String
deriving DecidableEq, Repr, Inhabited

/-- Navigation intents accepted by the `handleVersionChange` callback. -/
inductive NavIntent
  | next
  | prev
  | toggle
  | latest
deriving DecidableEq, Repr

/-- A toast shown to the user (`toast.error` / `toast.success`). -/
inductive Toast
  | error (msg : String)
  | success (msg : String)
deriving DecidableEq, Repr

/-- Body of the `POST /api/document` request issued by the handler. -/
structure HttpRequest where
  id : String
  content : Option String
  title : String
deriving DecidableEq, Repr

/-- Detail payload of the `version-restored` CustomEvent. -/
structure RestoredEvent where
  documentId : String
  content : Option String
  title : String
deriving DecidableEq, Repr

/-- Outcome oracle for the `fetch` call: `ok` response, non-ok response, or a
    thrown transport error.  The latter two are handled by the same catch. -/
inductive FetchOutcome
  | ok
  | notOk (status : Nat)
  | threw
deriving DecidableEq, Repr

/-- Outcome oracle for `versionCache.invalidateVersions`. -/
inductive CacheOutcome
  | ok
  | threw
deriving DecidableEq, Repr

/-- Every externally observable effect of one `handleRestoreVersion` run,
    channel by channel, plus the in-memory document state afterwards and the
    behaviour of the `isMutating` busy flag (`setBusy`: `setIsMutating(true)`
    was called; `busyAfter`: flag value once the handler returned). -/
structure RestoreResult where
  doc : DocState
  httpRequests : List HttpRequest
  swrMutations : List String
  navIntents : List NavIntent
  cacheInvalidationAttempts : List String
  cacheInvalidated : List String
  infoLogs : List String
  warnLogs : List String
  errorLogs : List String
  events : List RestoredEvent
  toasts : List Toast
  setBusy : Bool
  busyAfter : Bool
deriving DecidableEq, Repr

/-- Early return of the guard
    `!documents || currentVersionIndex < 0 || currentVersionIndex >= documents.length`:
    an error toast and nothing else; the busy flag is never touched. -/
def invalidSelectionResult (doc : DocState) : RestoreResult :=
  { doc := doc
    httpRequests := []
    swrMutations := []
    navIntents := []
    cacheInvalidationAttempts := []
    cacheInvalidated := []
    infoLogs := []
    warnLogs := []
    errorLogs := []
    events := []
    toasts := [Toast.error "Invalid version selected"]
    setBusy := false
    busyAfter := false }

/-- Catch branch: the store call failed (non-ok response or thrown error)
    after the request was issued.  State untouched, error logged and toasted,
    busy flag released by the finally block. -/
def restoreFailureResult (doc : DocState) (req : HttpRequest) : RestoreResult :=
  { doc := doc
    httpRequests := [req]
    swrMutations := []
    navIntents := []
    cacheInvalidationAttempts := []
    cacheInvalidated := []
    infoLogs := []
    warnLogs := []
    errorLogs := ["[Version] Error restoring version:"]
    events := []
    toasts := [Toast.error "Failed to restore version"]
    setBusy := true
    busyAfter := false }

/-- Success branch of `handleRestoreVersion` for the version entry `v`:
    SWR revalidation, `setDocument` with `content || ''` and
    `title || current.title`, `handleVersionChange('latest')`, a cache
    invalidation attempt whose failure is caught and logged as a warning,
    the `version-restored` event with the raw `content`/`title`, and the
    success toast. -/
def restoreSuccessResult (doc : DocState) (v : VersionEntry)
    (cache : CacheOutcome) : RestoreResult :=
  { doc := { doc with
      content := jsOrElse v.content ""
      title := jsOrStr v.title doc.title }
    httpRequests := [⟨doc.documentId, v.content, v.title⟩]
    swrMutations := ["/api/document?id=" ++ doc.documentId]
    navIntents := [NavIntent.latest]
    cacheInvalidationAttempts := [doc.documentId]
    cacheInvalidated :=
      match cache with
      | CacheOutcome.ok => [doc.documentId]
      | CacheOutcome.threw => []
    infoLogs :=
      match cache with
      | CacheOutcome.ok =>
          ["[Version] Invalidated cache after restore for " ++ doc.documentId]
      | CacheOutcome.threw => []
    warnLogs :=
      match cache with
      | CacheOutcome.ok => []
      | CacheOutcome.threw => ["[Version] Failed to invalidate cache:"]
    errorLogs := []
    events := [⟨doc.documentId, v.content, v.title⟩]
    toasts := [Toast.success "Version restored successfully"]
    setBusy := true
    busyAfter := false }

/-- Shallow embedding of `handleRestoreVersion` from `version-header.tsx`,
    parameterised by outcome oracles for the fetch and the cache invalidation.
    `currentVersionIndex` is an `Int` because the prop is an arbitrary JS
    number that the guard compares against `0` and `documents.length`. -/
def handleRestoreVersion (documents : Option (List VersionEntry))
    (currentVersionIndex : Int) (doc : DocState) (fetch : FetchOutcome)
    (cache : CacheOutcome) : RestoreResult :=
  match documents with
  | none => invalidSelectionResult doc
  | some docs =>
    if currentVersionIndex < 0 ∨ (docs.length : Int) ≤ currentVersionIndex then
      invalidSelectionResult doc
    else
      let v := docs.getD currentVersionIndex.toNat default
      match fetch with
      | FetchOutcome.ok => restoreSuccessResult doc v cache
      | FetchOutcome.notOk _ =>
          restoreFailureResult doc ⟨doc.documentId, v.content, v.title⟩
      | FetchOutcome.threw =>
          restoreFailureResult doc ⟨doc.documentId, v.content, v.title⟩

/-- The Restore button is rendered with `disabled={isMutating}`: a click while
    a restore is in flight does not run the handler at all (`none`), it is
    dropped, not queued. -/
def clickRestore (isMutating : Bool) (documents : Option (List VersionEntry))
    (currentVersionIndex : Int) (doc : DocState) (fetch : FetchOutcome)
    (cache : CacheOutcome) : Option RestoreResult :=
  if isMutating then none
  else some (handleRestoreVersion documents currentVersionIndex doc fetch cache)

/-- A version entry with an empty title: the `title || current.title` fallback
    in the success branch keeps the previous in-memory title for it. -/
def emptyTitleVersion : VersionEntry :=
  { id := "v1", content := some "restored body", title := "", createdAt := 0,
    version := 1, isCurrent := false }

/-- A plain version entry used to instantiate witnesses. -/
def sampleVersion : VersionEntry :=
  { id := "v2", content := some "body two", title := "Title Two", createdAt := 10,
    version := 2, isCurrent := true }

/-- A version entry with null content and empty title (the degenerate corner
    of the `Document` variant of the union type). -/
def nullContentVersion : VersionEntry :=
  { id := "v3", content := none, title := "", createdAt := 5,
    version := 1, isCurrent := false }

/-- A concrete in-memory document state used to instantiate witnesses. -/
def sampleDoc : DocState :=
  { documentId := "doc-1", content := "old body", title := "Old Title" }

/-- C1 counterexample: a successful restore of a version whose title is the
    empty string leaves the in-memory title at its previous value, so the
    in-memory state is not updated to the restored version's title. -/
theorem C1_counterexample :
    (handleRestoreVersion (some [emptyTitleVersion]) 0 sampleDoc
        FetchOutcome.ok CacheOutcome.ok).doc.title = "Old Title" ∧
    emptyTitleVersion.title = "" ∧
    (handleRestoreVersion (some [emptyTitleVersion]) 0 sampleDoc
        FetchOutcome.ok CacheOutcome.ok).doc.title ≠ emptyTitleVersion.title := by
  decide

/-- C1 (amended): with a valid index and an ok store response, the handler sets
    the in-memory content to the version's content coalesced through
    `content || ''`, sets the title to the version's title unless that title is
    empty (then the previous title is kept), emits exactly one `latest`
    navigation intent, attempts (and, when the cache call succeeds, performs)
    invalidation for the document id, and emits one `version-restored` event
    carrying exactly the raw `documentId`, `content` and `title`. -/
theorem C1_success_updates_and_emits (docs : List VersionEntry) (idx : Int)
    (doc : DocState) (cache : CacheOutcome) (v : VersionEntry)
    (h0 : 0 ≤ idx) (hlen : idx < (docs.length : Int))
    (hv : docs.getD idx.toNat default = v) :
    (handleRestoreVersion (some docs) idx doc FetchOutcome.ok cache).doc.content
        = jsOrElse v.content "" ∧
    (handleRestoreVersion (some docs) idx doc FetchOutcome.ok cache).doc.title
        = jsOrStr v.title doc.title ∧
    (handleRestoreVersion (some docs) idx doc FetchOutcome.ok cache).doc.documentId
        = doc.documentId ∧
    (handleRestoreVersion (some docs) idx doc FetchOutcome.ok cache).navIntents
        = [NavIntent.latest] ∧
    (handleRestoreVersion (some docs) idx doc FetchOutcome.ok cache).cacheInvalidationAttempts
        = [doc.documentId] ∧
    (cache = CacheOutcome.ok →
      (handleRestoreVersion (some docs) idx doc FetchOutcome.ok cache).cacheInvalidated
        = [doc.documentId]) ∧
    (handleRestoreVersion (some docs) idx doc FetchOutcome.ok cache).events
        = [⟨doc.documentId, v.content, v.title⟩] ∧
    (handleRestoreVersion (some docs) idx doc FetchOutcome.ok cache).toasts
        = [Toast.success "Version restored successfully"] := by
  have hg : ¬(idx < 0 ∨ (docs.length : Int) ≤ idx) := by omega
  have hv2 : docs[idx.toNat]?.getD default = v := by simpa using hv
  cases cache <;>
    simp [handleRestoreVersion, hg, hv2, restoreSuccessResult]

/-- C1 witness: the amended success behaviour at a concrete input. -/
theorem C1_witness :
    (0 : Int) ≤ 0 ∧ (0 : Int) < ([sampleVersion].length : Int) ∧
    ((handleRestoreVersion (some [sampleVersion]) 0 sampleDoc FetchOutcome.ok
        CacheOutcome.ok).doc.content = jsOrElse sampleVersion.content "" ∧
     (handleRestoreVersion (some [sampleVersion]) 0 sampleDoc FetchOutcome.ok
        CacheOutcome.ok).doc.title = jsOrStr sampleVersion.title sampleDoc.title ∧
     (handleRestoreVersion (some [sampleVersion]) 0 sampleDoc FetchOutcome.ok
        CacheOutcome.ok).doc.documentId = sampleDoc.documentId ∧
     (handleRestoreVersion (some [sampleVersion]) 0 sampleDoc FetchOutcome.ok
        CacheOutcome.ok).navIntents = [NavIntent.latest] ∧
     (handleRestoreVersion (some [sampleVersion]) 0 sampleDoc FetchOutcome.ok
        CacheOutcome.ok).cacheInvalidationAttempts = [sampleDoc.documentId] ∧
     (CacheOutcome.ok = CacheOutcome.ok →
       (handleRestoreVersion (some [sampleVersion]) 0 sampleDoc FetchOutcome.ok
          CacheOutcome.ok).cacheInvalidated = [sampleDoc.documentId]) ∧
     (handleRestoreVersion (some [sampleVersion]) 0 sampleDoc FetchOutcome.ok
        CacheOutcome.ok).events
        = [⟨sampleDoc.documentId, sampleVersion.content, sampleVersion.title⟩] ∧
     (handleRestoreVersion (some [sampleVersion]) 0 sampleDoc FetchOutcome.ok
        CacheOutcome.ok).toasts
        = [Toast.success "Version restored successfully"]) :=
  ⟨by decide, by decide,
   C1_success_updates_and_emits [sampleVersion] 0 sampleDoc CacheOutcome.ok
     sampleVersion (by decide) (by decide) (by decide)⟩

/-- C2: with a valid index but a failing store call (non-ok response or thrown
    error), the in-memory document state is unchanged, no navigation intent is
    emitted, the cache is neither invalidated nor even attempted, no
    `version-restored` event is emitted, a failure toast is shown, and exactly
    one HTTP request was issued (no retry). -/
theorem C2_failure_leaves_state_untouched (docs : List VersionEntry) (idx : Int)
    (doc : DocState) (fetch : FetchOutcome) (cache : CacheOutcome)
    (h0 : 0 ≤ idx) (hlen : idx < (docs.length : Int))
    (hf : fetch ≠ FetchOutcome.ok) :
    (handleRestoreVersion (some docs) idx doc fetch cache).doc = doc ∧
    (handleRestoreVersion (some docs) idx doc fetch cache).navIntents = [] ∧
    (handleRestoreVersion (some docs) idx doc fetch cache).cacheInvalidationAttempts = [] ∧
    (handleRestoreVersion (some docs) idx doc fetch cache).cacheInvalidated = [] ∧
    (handleRestoreVersion (some docs) idx doc fetch cache).events = [] ∧
    (handleRestoreVersion (some docs) idx doc fetch cache).toasts
        = [Toast.error "Failed to restore version"] ∧
    (handleRestoreVersion (some docs) idx doc fetch cache).httpRequests.length = 1 := by
  have hg : ¬(idx < 0 ∨ (docs.length : Int) ≤ idx) := by omega
  cases fetch with
  | ok => exact absurd rfl hf
  | notOk s => simp [handleRestoreVersion, hg, restoreFailureResult]
  | threw => simp [handleRestoreVersion, hg, restoreFailureResult]

/-- C2 witness: the failure behaviour at a concrete input with a thrown
    transport error. -/
theorem C2_witness :
    (0 : Int) ≤ 0 ∧ (0 : Int) < ([sampleVersion].length : Int) ∧
    FetchOutcome.threw ≠ FetchOutcome.ok ∧
    ((handleRestoreVersion (some [sampleVersion]) 0 sampleDoc FetchOutcome.threw
        CacheOutcome.ok).doc = sampleDoc ∧
     (handleRestoreVersion (some [sampleVersion]) 0 sampleDoc FetchOutcome.threw
        CacheOutcome.ok).navIntents = [] ∧
     (handleRestoreVersion (some [sampleVersion]) 0 sampleDoc FetchOutcome.threw
        CacheOutcome.ok).cacheInvalidationAttempts = [] ∧
     (handleRestoreVersion (some [sampleVersion]) 0 sampleDoc FetchOutcome.threw
        CacheOutcome.ok).cacheInvalidated = [] ∧
     (handleRestoreVersion (some [sampleVersion]) 0 sampleDoc FetchOutcome.threw
        CacheOutcome.ok).events = [] ∧
     (handleRestoreVersion (some [sampleVersion]) 0 sampleDoc FetchOutcome.threw
        CacheOutcome.ok).toasts = [Toast.error "Failed to restore version"] ∧
     (handleRestoreVersion (some [sampleVersion]) 0 sampleDoc FetchOutcome.threw
        CacheOutcome.ok).httpRequests.length = 1) :=
  ⟨by decide, by decide, by decide,
   C2_failure_leaves_state_untouched [sampleVersion] 0 sampleDoc
     FetchOutcome.threw CacheOutcome.ok (by decide) (by decide) (by decide)⟩

/-- C3: with an undefined version list or an out-of-bounds index the handler
    fails fast: an error toast, no HTTP request, no state change, no
    navigation intent, no cache invalidation attempt, no event. -/
theorem C3_invalid_selection_fails_fast (documents : Option (List VersionEntry))
    (idx : Int) (doc : DocState) (fetch : FetchOutcome) (cache : CacheOutcome)
    (h : documents = none ∨
         ∃ docs, documents = some docs ∧ (idx < 0 ∨ (docs.length : Int) ≤ idx)) :
    (handleRestoreVersion documents idx doc fetch cache).toasts
        = [Toast.error "Invalid version selected"] ∧
    (handleRestoreVersion documents idx doc fetch cache).httpRequests = [] ∧
    (handleRestoreVersion documents idx doc fetch cache).doc = doc ∧
    (handleRestoreVersion documents idx doc fetch cache).navIntents = [] ∧
    (handleRestoreVersion documents idx doc fetch cache).cacheInvalidationAttempts = [] ∧
    (handleRestoreVersion documents idx doc fetch cache).cacheInvalidated = [] ∧
    (handleRestoreVersion documents idx doc fetch cache).events = [] := by
  rcases h with h | ⟨docs, rfl, hg⟩
  · subst h
    simp [handleRestoreVersion, invalidSelectionResult]
  · simp [handleRestoreVersion, hg, invalidSelectionResult]

/-- C3 witness: the fail-fast behaviour on an empty version list at index 0. -/
theorem C3_witness :
    ((some ([] : List VersionEntry) = none ∨
      ∃ docs, some ([] : List VersionEntry) = some docs ∧
        ((0 : Int) < 0 ∨ (docs.length : Int) ≤ 0))) ∧
    ((handleRestoreVersion (some []) 0 sampleDoc FetchOutcome.ok
        CacheOutcome.ok).toasts = [Toast.error "Invalid version selected"] ∧
     (handleRestoreVersion (some []) 0 sampleDoc FetchOutcome.ok
        CacheOutcome.ok).httpRequests = [] ∧
     (handleRestoreVersion (some []) 0 sampleDoc FetchOutcome.ok
        CacheOutcome.ok).doc = sampleDoc ∧
     (handleRestoreVersion (some []) 0 sampleDoc FetchOutcome.ok
        CacheOutcome.ok).navIntents = [] ∧
     (handleRestoreVersion (some []) 0 sampleDoc FetchOutcome.ok
        CacheOutcome.ok).cacheInvalidationAttempts = [] ∧
     (handleRestoreVersion (some []) 0 sampleDoc FetchOutcome.ok
        CacheOutcome.ok).cacheInvalidated = [] ∧
     (handleRestoreVersion (some []) 0 sampleDoc FetchOutcome.ok
        CacheOutcome.ok).events = []) :=
  ⟨Or.inr ⟨[], rfl, Or.inr (by decide)⟩,
   C3_invalid_selection_fails_fast (some []) 0 sampleDoc FetchOutcome.ok
     CacheOutcome.ok (Or.inr ⟨[], rfl, Or.inr (by decide)⟩)⟩

/-- C7: while a restore is in flight the busy flag disables the control, so a
    second click runs nothing (rejected, not queued); whenever the handler
    passes the guard it sets the flag at the start and the finally block has
    cleared it by the time it returns, for every fetch/cache outcome; a click
    on an idle session runs the handler exactly once. -/
theorem C7_busy_flag_blocks_reentry (docs : List VersionEntry) (idx : Int)
    (doc : DocState) (fetch : FetchOutcome) (cache : CacheOutcome)
    (h0 : 0 ≤ idx) (hlen : idx < (docs.length : Int)) :
    clickRestore true (some docs) idx doc fetch cache = none ∧
    (handleRestoreVersion (some docs) idx doc fetch cache).setBusy = true ∧
    (handleRestoreVersion (some docs) idx doc fetch cache).busyAfter = false ∧
    clickRestore false (some docs) idx doc fetch cache
        = some (handleRestoreVersion (some docs) idx doc fetch cache) := by
  have hg : ¬(idx < 0 ∨ (docs.length : Int) ≤ idx) := by omega
  refine ⟨rfl, ?_, ?_, rfl⟩ <;>
    cases fetch <;>
      simp [handleRestoreVersion, hg, restoreSuccessResult, restoreFailureResult]

/-- C7 witness: the busy-flag behaviour at a concrete input. -/
theorem C7_witness :
    (0 : Int) ≤ 0 ∧ (0 : Int) < ([sampleVersion].length : Int) ∧
    (clickRestore true (some [sampleVersion]) 0 sampleDoc FetchOutcome.ok
        CacheOutcome.ok = none ∧
     (handleRestoreVersion (some [sampleVersion]) 0 sampleDoc FetchOutcome.ok
        CacheOutcome.ok).setBusy = true ∧
     (handleRestoreVersion (some [sampleVersion]) 0 sampleDoc FetchOutcome.ok
        CacheOutcome.ok).busyAfter = false ∧
     clickRestore false (some [sampleVersion]) 0 sampleDoc FetchOutcome.ok
        CacheOutcome.ok
        = some (handleRestoreVersion (some [sampleVersion]) 0 sampleDoc
            FetchOutcome.ok CacheOutcome.ok)) :=
  ⟨by decide, by decide,
   C7_busy_flag_blocks_reentry [sampleVersion] 0 sampleDoc FetchOutcome.ok
     CacheOutcome.ok (by decide) (by decide)⟩

/-- C8: when the store call succeeds but the cache invalidation throws, the
    failure is logged as a warning and swallowed: the success toast is still
    shown, the `latest` navigation intent is still emitted, the event is still
    dispatched, no error is recorded, and the handler still terminates with
    the busy flag cleared. -/
theorem C8_cache_failure_swallowed (docs : List VersionEntry) (idx : Int)
    (doc : DocState) (v : VersionEntry)
    (h0 : 0 ≤ idx) (hlen : idx < (docs.length : Int))
    (hv : docs.getD idx.toNat default = v) :
    (handleRestoreVersion (some docs) idx doc FetchOutcome.ok
        CacheOutcome.threw).warnLogs = ["[Version] Failed to invalidate cache:"] ∧
    (handleRestoreVersion (some docs) idx doc FetchOutcome.ok
        CacheOutcome.threw).cacheInvalidated = [] ∧
    (handleRestoreVersion (some docs) idx doc FetchOutcome.ok
        CacheOutcome.threw).toasts = [Toast.success "Version restored successfully"] ∧
    (handleRestoreVersion (some docs) idx doc FetchOutcome.ok
        CacheOutcome.threw).navIntents = [NavIntent.latest] ∧
    (handleRestoreVersion (some docs) idx doc FetchOutcome.ok
        CacheOutcome.threw).events = [⟨doc.documentId, v.content, v.title⟩] ∧
    (handleRestoreVersion (some docs) idx doc FetchOutcome.ok
        CacheOutcome.threw).errorLogs = [] ∧
    (handleRestoreVersion (some docs) idx doc FetchOutcome.ok
        CacheOutcome.threw).busyAfter = false := by
  have hg : ¬(idx < 0 ∨ (docs.length : Int) ≤ idx) := by omega
  have hv2 : docs[idx.toNat]?.getD default = v := by simpa using hv
  simp [handleRestoreVersion, hg, hv2, restoreSuccessResult]

/-- C8 witness: the swallowed cache failure at a concrete input. -/
theorem C8_witness :
    (0 : Int) ≤ 0 ∧ (0 : Int) < ([sampleVersion].length : Int) ∧
    ((handleRestoreVersion (some [sampleVersion]) 0 sampleDoc FetchOutcome.ok
        CacheOutcome.threw).warnLogs = ["[Version] Failed to invalidate cache:"] ∧
     (handleRestoreVersion (some [sampleVersion]) 0 sampleDoc FetchOutcome.ok
        CacheOutcome.threw).cacheInvalidated = [] ∧
     (handleRestoreVersion (some [sampleVersion]) 0 sampleDoc FetchOutcome.ok
        CacheOutcome.threw).toasts = [Toast.success "Version restored successfully"] ∧
     (handleRestoreVersion (some [sampleVersion]) 0 sampleDoc FetchOutcome.ok
        CacheOutcome.threw).navIntents = [NavIntent.latest] ∧
     (handleRestoreVersion (some [sampleVersion]) 0 sampleDoc FetchOutcome.ok
        CacheOutcome.threw).events
        = [⟨sampleDoc.documentId, sampleVersion.content, sampleVersion.title⟩] ∧
     (handleRestoreVersion (some [sampleVersion]) 0 sampleDoc FetchOutcome.ok
        CacheOutcome.threw).errorLogs = [] ∧
     (handleRestoreVersion (some [sampleVersion]) 0 sampleDoc FetchOutcome.ok
        CacheOutcome.threw).busyAfter = false) :=
  ⟨by decide, by decide,
   C8_cache_failure_swallowed [sampleVersion] 0 sampleDoc sampleVersion
     (by decide) (by decide) (by decide)⟩

/-- C9: restoring the version that is already current (the in-memory state
    already shows its non-null content and its title) is idempotent on the
    displayed content and title — the in-memory document is unchanged and
    equal to the version's content/title — yet it still issues the HTTP
    request, still emits the `latest` navigation intent, and still attempts
    cache invalidation for the document id. -/
theorem C9_restore_current_idempotent (docs : List VersionEntry) (idx : Int)
    (doc : DocState) (cache : CacheOutcome) (v : VersionEntry) (c : String)
    (h0 : 0 ≤ idx) (hlen : idx < (docs.length : Int))
    (hv : docs.getD idx.toNat default = v)
    (hc : v.content = some c) (hdc : doc.content = c) (hdt : doc.title = v.title) :
    (handleRestoreVersion (some docs) idx doc FetchOutcome.ok cache).doc = doc ∧
    (handleRestoreVersion (some docs) idx doc FetchOutcome.ok cache).doc.content = c ∧
    (handleRestoreVersion (some docs) idx doc FetchOutcome.ok cache).doc.title = v.title ∧
    (handleRestoreVersion (some docs) idx doc FetchOutcome.ok cache).httpRequests
        = [⟨doc.documentId, v.content, v.title⟩] ∧
    (handleRestoreVersion (some docs) idx doc FetchOutcome.ok cache).navIntents
        = [NavIntent.latest] ∧
    (handleRestoreVersion (some docs) idx doc FetchOutcome.ok cache).cacheInvalidationAttempts
        = [doc.documentId] := by
  obtain ⟨did, dcont, dtitle⟩ := doc
  replace hdc : dcont = c := hdc
  replace hdt : dtitle = v.title := hdt
  subst hdc
  subst hdt
  have hg : ¬(idx < 0 ∨ (docs.length : Int) ≤ idx) := by omega
  have hv2 : docs[idx.toNat]?.getD default = v := by simpa using hv
  have hcontent : jsOrElse v.content "" = dcont := by
    rw [hc]
    by_cases hce : dcont = "" <;> simp [jsOrElse, hce]
  have hts : jsOrStr v.title v.title = v.title := by
    by_cases hte : v.title = "" <;> simp [jsOrStr, hte]
  simp [handleRestoreVersion, hg, hv2, restoreSuccessResult, hcontent, hts]

/-- C9 witness: restoring the already-current version at a concrete input. -/
theorem C9_witness :
    (0 : Int) ≤ 0 ∧ (0 : Int) < ([sampleVersion].length : Int) ∧
    sampleVersion.content = some "body two" ∧
    ((handleRestoreVersion (some [sampleVersion]) 0
        ⟨"doc-1", "body two", "Title Two"⟩ FetchOutcome.ok CacheOutcome.ok).doc
        = ⟨"doc-1", "body two", "Title Two"⟩ ∧
     (handleRestoreVersion (some [sampleVersion]) 0
        ⟨"doc-1", "body two", "Title Two"⟩ FetchOutcome.ok
        CacheOutcome.ok).doc.content = "body two" ∧
     (handleRestoreVersion (some [sampleVersion]) 0
        ⟨"doc-1", "body two", "Title Two"⟩ FetchOutcome.ok
        CacheOutcome.ok).doc.title = sampleVersion.title ∧
     (handleRestoreVersion (some [sampleVersion]) 0
        ⟨"doc-1", "body two", "Title Two"⟩ FetchOutcome.ok
        CacheOutcome.ok).httpRequests
        = [⟨"doc-1", sampleVersion.content, sampleVersion.title⟩] ∧
     (handleRestoreVersion (some [sampleVersion]) 0
        ⟨"doc-1", "body two", "Title Two"⟩ FetchOutcome.ok
        CacheOutcome.ok).navIntents = [NavIntent.latest] ∧
     (handleRestoreVersion (some [sampleVersion]) 0
        ⟨"doc-1", "body two", "Title Two"⟩ FetchOutcome.ok
        CacheOutcome.ok).cacheInvalidationAttempts = ["doc-1"]) :=
  ⟨by decide, by decide, by decide,
   C9_restore_current_idempotent [sampleVersion] 0
     ⟨"doc-1", "body two", "Title Two"⟩ CacheOutcome.ok sampleVersion "body two"
     (by decide) (by decide) (by decide) (by decide) (by decide) (by decide)⟩

/-- C10: on a successful restore, a null or empty version content yields an
    in-memory content equal to the empty string, an empty version title leaves
    the in-memory title at its previous value, and the emitted
    `version-restored` event carries the raw, unsubstituted content and
    title. -/
theorem C10_falsy_substitution_and_raw_event (docs : List VersionEntry)
    (idx : Int) (doc : DocState) (cache : CacheOutcome) (v : VersionEntry)
    (h0 : 0 ≤ idx) (hlen : idx < (docs.length : Int))
    (hv : docs.getD idx.toNat default = v) :
    ((v.content = none ∨ v.content = some "") →
      (handleRestoreVersion (some docs) idx doc FetchOutcome.ok cache).doc.content
        = "") ∧
    (v.title = "" →
      (handleRestoreVersion (some docs) idx doc FetchOutcome.ok cache).doc.title
        = doc.title) ∧
    (handleRestoreVersion (some docs) idx doc FetchOutcome.ok cache).events
        = [⟨doc.documentId, v.content, v.title⟩] := by
  have hg : ¬(idx < 0 ∨ (docs.length : Int) ≤ idx) := by omega
  have hv2 : docs[idx.toNat]?.getD default = v := by simpa using hv
  refine ⟨?_, ?_, ?_⟩
  · rintro (hc | hc) <;>
      simp [handleRestoreVersion, hg, hv2, restoreSuccessResult, jsOrElse, hc]
  · intro ht
    simp [handleRestoreVersion, hg, hv2, restoreSuccessResult, jsOrStr, ht]
  · simp [handleRestoreVersion, hg, hv2, restoreSuccessResult]

/-- C10 witness: restoring a null-content, empty-title version shows the
    event payload differing from the displayed in-memory state. -/
theorem C10_witness :
    (0 : Int) ≤ 0 ∧ (0 : Int) < ([nullContentVersion].length : Int) ∧
    (((nullContentVersion.content = none ∨ nullContentVersion.content = some "") →
       (handleRestoreVersion (some [nullContentVersion]) 0 sampleDoc
          FetchOutcome.ok CacheOutcome.ok).doc.content = "") ∧
     (nullContentVersion.title = "" →
       (handleRestoreVersion (some [nullContentVersion]) 0 sampleDoc
          FetchOutcome.ok CacheOutcome.ok).doc.title = sampleDoc.title) ∧
     (handleRestoreVersion (some [nullContentVersion]) 0 sampleDoc
        FetchOutcome.ok CacheOutcome.ok).events
        = [⟨sampleDoc.documentId, nullContentVersion.content,
            nullContentVersion.title⟩]) :=
  ⟨by decide, by decide,
   C10_falsy_substitution_and_raw_event [nullContentVersion] 0 sampleDoc
     CacheOutcome.ok nullContentVersion (by decide) (by decide) (by decide)⟩

/-- Civil date plus wall-clock time, in the local timezone in which the
    component formats its labels.  This is the argument type of the date-fns
    calls made by `VersionHeader`. -/
structure DateTime where
  year : Int
  month : Nat
  day : Nat
  hour : Nat
  minute : Nat
deriving DecidableEq, Repr

/-- Days since 1970-01-01 of a civil date (the standard civil-from-days
    conversion used by calendar libraries). -/
def daysFromCivil (y : Int) (m d : Nat) : Int :=
  let y2 : Int := if m ≤ 2 then y - 1 else y
  let era : Int := (if 0 ≤ y2 then y2 else y2 - 399) / 400
  let yoe : Int := y2 - era * 400
  let mp : Int := ((m : Int) + 9) % 12
  let doy : Int := (153 * mp + 2) / 5 + (d : Int) - 1
  let doe : Int := yoe * 365 + yoe / 4 - yoe / 100 + doy
  era * 146097 + doe - 719468

/-- The civil day a `DateTime` falls on. -/
def DateTime.toDays (t : DateTime) : Int :=
  daysFromCivil t.year t.month t.day

/-- Minutes since the epoch of a `DateTime`. -/
def DateTime.toMinutes (t : DateTime) : Int :=
  t.toDays * 1440 + (t.hour : Int) * 60 + (t.minute : Int)

/-- date-fns `isToday(date)` relative to `now`: same civil day. -/
def isToday (now t : DateTime) : Bool :=
  t.toDays == now.toDays

/-- date-fns `isYesterday(date)` relative to `now`: the previous civil day. -/
def isYesterday (now t : DateTime) : Bool :=
  t.toDays == now.toDays - 1

/-- date-fns `differenceInDays(a, b)`: the number of full 24-hour periods
    between the two instants, truncated toward zero. -/
def differenceInDays (a b : DateTime) : Int :=
  (a.toMinutes - b.toMinutes).tdiv 1440

/-- date-fns `format(date, 'EEE')`: abbreviated weekday name.  Day 0 of the
    epoch (1970-01-01) was a Thursday. -/
def weekdayName (t : DateTime) : String :=
  ["Sun", "Mon", "Tue", "Wed", "Thu", "Fri", "Sat"].getD ((t.toDays + 4) % 7).toNat ""

/-- date-fns `format(date, 'MMM')`: abbreviated month name. -/
def monthName (m : Nat) : String :=
  ["Jan", "Feb", "Mar", "Apr", "May", "Jun",
   "Jul", "Aug", "Sep", "Oct", "Nov", "Dec"].getD (m - 1) ""

/-- `formatVersionLabel` from `version-header.tsx`, with the component's
    `new Date()` clock reads made explicit as the `now` argument:
    Today / Yesterday for the two most recent civil days, then the cascade on
    `differenceInDays(now, date)`: weekday name under 7, month+day under 60,
    month+year otherwise. -/
def formatVersionLabel (now t : DateTime) : String :=
  if isToday now t then "Today"
  else if isYesterday now t then "Yesterday"
  else
    let days := differenceInDays now t
    if days < 7 then weekdayName t
    else if days < 60 then monthName t.month ++ " " ++ toString t.day
    else monthName t.month ++ " " ++ toString t.year

/-- `formatVersionTime` from `version-header.tsx`: date-fns
    `format(date, 'h:mm a')`, a 12-hour clock with zero-padded minutes. -/
def formatVersionTime (t : DateTime) : String :=
  let h12 := t.hour % 12
  let h := if h12 = 0 then 12 else h12
  let pad := if t.minute < 10 then "0" else ""
  toString h ++ ":" ++ pad ++ toString t.minute ++ " " ++
    (if t.hour < 12 then "AM" else "PM")

/-- The fixed clock of the label-formatting scenarios: 2024-06-15 12:00. -/
def specNow : DateTime :=
  { year := 2024, month := 6, day := 15, hour := 12, minute := 0 }

/-- C6: with now fixed at 2024-06-15 12:00, the label formatter yields
    "Today" for 2024-06-15 09:00, "Yesterday" for 2024-06-14 09:00, the
    weekday name ("Mon") for 2024-06-10 09:00, month+day ("May 1") for
    2024-05-01, and month+year ("Jan 2023") for 2023-01-01; alongside it the
    absolute time-of-day formatter yields "9:00 AM" for 09:00. -/
theorem C6_label_formatting_scenarios :
    formatVersionLabel specNow ⟨2024, 6, 15, 9, 0⟩ = "Today" ∧
    formatVersionLabel specNow ⟨2024, 6, 14, 9, 0⟩ = "Yesterday" ∧
    formatVersionLabel specNow ⟨2024, 6, 10, 9, 0⟩ = weekdayName ⟨2024, 6, 10, 9, 0⟩ ∧
    formatVersionLabel specNow ⟨2024, 6, 10, 9, 0⟩ = "Mon" ∧
    formatVersionLabel specNow ⟨2024, 5, 1, 0, 0⟩ = "May 1" ∧
    formatVersionLabel specNow ⟨2023, 1, 1, 0, 0⟩ = "Jan 2023" ∧
    formatVersionTime ⟨2024, 6, 15, 9, 0⟩ = "9:00 AM" := by
  decide

/-- A row of the `DocumentVersion` table exactly as `schema.ts` declares it:
    `id` uuid primary key, `documentId` uuid NOT NULL referencing `Document.id`
    with cascade delete, `version` integer NOT NULL (default 1), `content`
    text NOT NULL, `diff_content` text nullable, `previous_version_id` uuid
    nullable referencing `DocumentVersion.id`, and the two NOT NULL
    timestamps.  Uuids and timestamps are abstracted to numbers. -/
structure DocumentVersionRow where
  id : Nat
  documentId : Nat
  version : Int
  content : String
  diffContent : Option String
  previousVersionId : Option Nat
  createdAt : Int
  updatedAt : Int
deriving DecidableEq, Repr

/-- The foreign keys `schema.ts` declares on a `DocumentVersion` row:
    `documentId` must reference an existing `Document.id`, and
    `previousVersionId`, when set, must reference some `DocumentVersion.id`. -/
def rowForeignKeysOk (docIds : List Nat) (rows : List DocumentVersionRow)
    (r : DocumentVersionRow) : Bool :=
  docIds.contains r.documentId &&
    (match r.previousVersionId with
     | none => true
     | some p => (rows.map (fun w => w.id)).contains p)

/-- All constraints the drizzle schema declares on the `DocumentVersion`
    table: the primary key on `id` and the two foreign keys (NOT NULL holds by
    construction of the row type).  The schema declares no unique constraint
    on `(documentId, version)`. -/
def DocumentVersionTableValid (docIds : List Nat)
    (rows : List DocumentVersionRow) : Prop :=
  (rows.map (fun r => r.id)).Nodup ∧
  ∀ r ∈ rows, rowForeignKeysOk docIds rows r = true

instance (docIds : List Nat) (rows : List DocumentVersionRow) :
    Decidable (DocumentVersionTableValid docIds rows) := by
  unfold DocumentVersionTableValid
  exact inferInstance

/-- First of two schema-valid rows sharing `(documentId, version)`. -/
def dupRowA : DocumentVersionRow :=
  { id := 0, documentId := 1, version := 1, content := "first",
    diffContent := none, previousVersionId := none, createdAt := 0, updatedAt := 0 }

/-- Second of two schema-valid rows sharing `(documentId, version)`. -/
def dupRowB : DocumentVersionRow :=
  { id := 1, documentId := 1, version := 1, content := "second",
    diffContent := none, previousVersionId := none, createdAt := 0, updatedAt := 0 }

/-- C4 counterexample: the declared constraints of the `DocumentVersion`
    table do not force `(documentId, version)` to be unique — a table holding
    two distinct rows with the same document id and the same version number
    satisfies every constraint the schema declares. -/
theorem C4_counterexample :
    ¬ (∀ (docIds : List Nat) (rows : List DocumentVersionRow),
        DocumentVersionTableValid docIds rows →
        ∀ r1 ∈ rows, ∀ r2 ∈ rows,
          r1.documentId = r2.documentId → r1.version = r2.version →
          r1.id = r2.id) := by
  intro h
  have h2 := h [1] [dupRowA, dupRowB] (by decide) dupRowA (by decide) dupRowB
    (by decide) (by decide) (by decide)
  exact absurd h2 (by decide)

/-- A version node held by the Version Store, with the fields the chain
    invariants are about. -/
structure StoreVersion where
  id : Nat
  version : Nat
  content : String
  previousVersionId : Option Nat
deriving DecidableEq, Repr

/-- State of the Version Store for one document: its version rows in creation
    order, plus the id allocator. -/
structure StoreState where
  versions : List StoreVersion
  nextId : Nat
deriving DecidableEq, Repr

/-- A document with no recorded history yet. -/
def emptyStore : StoreState :=
  { versions := [], nextId := 0 }

/-- Largest version number recorded for the document (0 when none). -/
def maxVersionNumber (l : List StoreVersion) : Nat :=
  l.foldl (fun m v => max m v.version) 0

/-- Keep whichever of the two candidates has the higher version number. -/
def pickLatest (acc : Option StoreVersion) (v : StoreVersion) :
    Option StoreVersion :=
  match acc with
  | none => some v
  | some w => if w.version < v.version then some v else some w

/-- The version with the highest version number, if any. -/
def latestVersionOf (l : List StoreVersion) : Option StoreVersion :=
  l.foldl pickLatest none

/-- Modelled from the spec: the Version Store write path `createVersion`
    (§4.1) is not among the sources under verification — only the schema
    declaration is — so it is taken from the spec's words: the new version
    number is `(max existing version number for this document) + 1` and
    `previousVersionId` is the current latest version's id, or null if this is
    version 1. -/
def createVersion (s : StoreState) (content : String) : StoreState :=
  { versions := s.versions ++
      [{ id := s.nextId,
         version := maxVersionNumber s.versions + 1,
         content := content,
         previousVersionId := (latestVersionOf s.versions).map (fun v => v.id) }],
    nextId := s.nextId + 1 }

/-- Store states produced by a sequence of `createVersion` calls starting
    from an empty history. -/
inductive Reachable : StoreState → Prop
  | empty : Reachable emptyStore
  | create (s : StoreState) (c : String) (h : Reachable s) :
      Reachable (createVersion s c)

/-- Positional shape of a canonical chain: the row at index `i` has id `i`,
    version `i + 1`, and links to the row at index `i - 1` (none at the
    root). -/
def ChainShape (l : List StoreVersion) : Prop :=
  ∀ i (h : i < l.length),
    l[i].id = i ∧
    l[i].version = i + 1 ∧
    l[i].previousVersionId = if i = 0 then none else some (i - 1)

/-- Store invariant maintained by `createVersion`. -/
def StoreInv (s : StoreState) : Prop :=
  s.nextId = s.versions.length ∧
  maxVersionNumber s.versions = s.versions.length ∧
  latestVersionOf s.versions = s.versions.getLast? ∧
  ChainShape s.versions

theorem maxVersionNumber_append (l : List StoreVersion) (v : StoreVersion) :
    maxVersionNumber (l ++ [v]) = max (maxVersionNumber l) v.version := by
  simp [maxVersionNumber, List.foldl_append]

theorem latestVersionOf_append (l : List StoreVersion) (v : StoreVersion) :
    latestVersionOf (l ++ [v]) = pickLatest (latestVersionOf l) v := by
  simp [latestVersionOf, List.foldl_append]

theorem storeInv_empty : StoreInv emptyStore := by
  refine ⟨rfl, rfl, rfl, ?_⟩
  intro i h
  simp [emptyStore] at h

theorem getLast?_elem_of_shape (l : List StoreVersion) (hshape : ChainShape l)
    (w : StoreVersion) (heq : l.getLast? = some w) :
    l ≠ [] ∧ w.id = l.length - 1 ∧ w.version = l.length := by
  have hne : l ≠ [] := by
    intro hcon
    rw [hcon] at heq
    simp at heq
  have hpos : 0 < l.length := List.length_pos.mpr hne
  have hi : l.length - 1 < l.length := by omega
  rw [List.getLast?_eq_getElem?, List.getElem?_eq_getElem hi] at heq
  injection heq with heq2
  obtain ⟨hid, hver, _⟩ := hshape (l.length - 1) hi
  refine ⟨hne, ?_, ?_⟩
  · rw [← heq2, hid]
  · rw [← heq2, hver]
    omega

theorem chainShape_append (l : List StoreVersion) (nv : StoreVersion)
    (hshape : ChainShape l) (hid : nv.id = l.length)
    (hver : nv.version = l.length + 1)
    (hprev : nv.previousVersionId =
      if l.length = 0 then none else some (l.length - 1)) :
    ChainShape (l ++ [nv]) := by
  intro i hi
  simp only [List.length_append, List.length_cons, List.length_nil] at hi
  by_cases hcase : i < l.length
  · rw [List.getElem_append_left hcase]
    exact hshape i hcase
  · have hieq : i = l.length := by omega
    subst hieq
    rw [List.getElem_append_right (Nat.le_refl l.length)]
    simp only [Nat.sub_self, List.getElem_cons_zero]
    exact ⟨hid, hver, hprev⟩

theorem storeInv_create (s : StoreState) (c : String) (h : StoreInv s) :
    StoreInv (createVersion s c) := by
  obtain ⟨hnext, hmax, hlatest, hshape⟩ := h
  have hprev : ((latestVersionOf s.versions).map (fun v => v.id)) =
      if s.versions.length = 0 then none else some (s.versions.length - 1) := by
    rw [hlatest]
    rcases heq : s.versions.getLast? with _ | w
    · have he : s.versions = [] := List.getLast?_eq_none_iff.mp heq
      simp [he]
    · obtain ⟨hne, hid, _⟩ := getLast?_elem_of_shape s.versions hshape w heq
      have hpos : 0 < s.versions.length := List.length_pos.mpr hne
      simp [hid, Nat.pos_iff_ne_zero.mp hpos]
  refine ⟨?_, ?_, ?_, ?_⟩
  · simp [createVersion, hnext]
  · rw [show (createVersion s c).versions = s.versions ++
        [{ id := s.nextId, version := maxVersionNumber s.versions + 1,
           content := c,
           previousVersionId := (latestVersionOf s.versions).map (fun v => v.id) }]
      from rfl]
    rw [maxVersionNumber_append, hmax]
    simp
  · rw [show (createVersion s c).versions = s.versions ++
        [{ id := s.nextId, version := maxVersionNumber s.versions + 1,
           content := c,
           previousVersionId := (latestVersionOf s.versions).map (fun v => v.id) }]
      from rfl]
    rw [latestVersionOf_append, hlatest, List.getLast?_concat]
    rcases heq : s.versions.getLast? with _ | w
    · rfl
    · obtain ⟨_, _, hver⟩ := getLast?_elem_of_shape s.versions hshape w heq
      have hlt : w.version < maxVersionNumber s.versions + 1 := by omega
      simp [pickLatest, hlt]
  · show ChainShape (s.versions ++
      [{ id := s.nextId, version := maxVersionNumber s.versions + 1,
         content := c,
         previousVersionId := (latestVersionOf s.versions).map (fun v => v.id) }])
    exact chainShape_append s.versions _ hshape hnext (by rw [hmax]) hprev

theorem reachable_storeInv (s : StoreState) (h : Reachable s) : StoreInv s := by
  induction h with
  | empty => exact storeInv_empty
  | create s c _ ih => exact storeInv_create s c ih

/-- Look a version up by id. -/
def findVersion (l : List StoreVersion) (vid : Nat) : Option StoreVersion :=
  l.find? (fun v => v.id == vid)

/-- Follow `previousVersionId` links starting at `v`, spending one unit of
    fuel per step, collecting the visited versions in order. -/
def walkChain (l : List StoreVersion) : StoreVersion → Nat → List StoreVersion
  | v, 0 => [v]
  | v, fuel + 1 =>
    v :: (match v.previousVersionId with
          | none => []
          | some pid =>
            match findVersion l pid with
            | none => []
            | some w => walkChain l w fuel)

theorem find_by_id (l : List StoreVersion) (off : Nat)
    (hid : ∀ i (h : i < l.length), l[i].id = off + i) :
    ∀ k (hk : k < l.length),
      l.find? (fun v => v.id == off + k) = some l[k] := by
  induction l generalizing off with
  | nil =>
    intro k hk
    simp at hk
  | cons a t ih =>
    intro k hk
    have ha : a.id = off := by simpa using hid 0 (by simp)
    cases k with
    | zero =>
      rw [List.find?_cons]
      simp [ha]
    | succ k =>
      have hane : (a.id == off + (k + 1)) = false := by
        rw [ha]
        simp only [beq_eq_false_iff_ne, ne_eq]
        omega
      rw [List.find?_cons, hane]
      have hidt : ∀ i (h : i < t.length), t[i].id = (off + 1) + i := by
        intro i h
        have h2 := hid (i + 1) (by simpa using Nat.succ_lt_succ h)
        simp only [List.getElem_cons_succ] at h2
        omega
      have hk2 : k < t.length := by simpa using Nat.lt_of_succ_lt_succ hk
      have h3 := ih (off + 1) hidt k hk2
      simp only [show off + (k + 1) = off + 1 + k from by omega]
      simpa using h3

theorem findVersion_shape (l : List StoreVersion) (hshape : ChainShape l)
    (k : Nat) (hk : k < l.length) :
    findVersion l k = some l[k] := by
  have hid : ∀ i (h : i < l.length), l[i].id = 0 + i := by
    intro i h
    simpa using (hshape i h).1
  have h2 := find_by_id l 0 hid k hk
  simpa [findVersion] using h2

theorem walkChain_take (l : List StoreVersion) (hshape : ChainShape l) :
    ∀ i (hi : i < l.length), walkChain l l[i] i = (l.take (i + 1)).reverse := by
  intro i
  induction i with
  | zero =>
    intro hi
    rw [walkChain, List.take_succ]
    simp [List.getElem?_eq_getElem hi]
  | succ k ih =>
    intro hi
    have hk : k < l.length := by omega
    have hprev2 : l[k + 1].previousVersionId = some k := by
      simpa using (hshape (k + 1) hi).2.2
    rw [walkChain, hprev2]
    simp only [findVersion_shape l hshape k hk, ih hk, List.take_succ,
      List.getElem?_eq_getElem hi]
    simp

/-- A list whose `i`-th projection is `off + i` is the literal range. -/
theorem map_proj_range (g : StoreVersion → Nat) (l : List StoreVersion)
    (off : Nat) (h : ∀ i (hi : i < l.length), g l[i] = off + i) :
    l.map g = List.range' off l.length := by
  induction l generalizing off with
  | nil => simp
  | cons a t ih =>
    have ha : g a = off := by simpa using h 0 (by simp)
    have ht : ∀ i (hi : i < t.length), g t[i] = (off + 1) + i := by
      intro i hi
      have h2 := h (i + 1) (by simpa using Nat.succ_lt_succ hi)
      simp only [List.getElem_cons_succ] at h2
      omega
    simp [ha, ih (off + 1) ht, List.range'_succ]

/-- C5: in every reachable store with a nonempty history, walking the
    `previousVersionId` links from the latest version with
    `version_number - 1` steps of fuel visits `version_number` nodes whose
    version numbers are exactly `length, …, 1` (each exactly one less than
    its successor, terminating at version 1) and whose ids never repeat
    (acyclic, no revisits); moreover every link points to an existing version
    whose version number is exactly one less (so no version references itself
    or a later one), and no two distinct versions share a predecessor (the
    chain never branches). -/
theorem C5_chain_invariants (s : StoreState) (hr : Reachable s)
    (hne : s.versions ≠ []) :
    (walkChain s.versions (s.versions.getLast hne)
        ((s.versions.getLast hne).version - 1)).length
      = (s.versions.getLast hne).version ∧
    (walkChain s.versions (s.versions.getLast hne)
        ((s.versions.getLast hne).version - 1)).map (fun v => v.version)
      = (List.range' 1 s.versions.length).reverse ∧
    ((walkChain s.versions (s.versions.getLast hne)
        ((s.versions.getLast hne).version - 1)).map (fun v => v.id)).Nodup ∧
    ((walkChain s.versions (s.versions.getLast hne)
        ((s.versions.getLast hne).version - 1)).map (fun v => v.version)).getLast?
      = some 1 ∧
    (∀ v ∈ s.versions, ∀ p, v.previousVersionId = some p →
      ∃ w ∈ s.versions, w.id = p ∧ w.version + 1 = v.version) ∧
    (∀ v ∈ s.versions, ∀ w ∈ s.versions, ∀ p,
      v.previousVersionId = some p → w.previousVersionId = some p → v = w) := by
  obtain ⟨hnext, hmax, hlatest, hshape⟩ := reachable_storeInv s hr
  have hpos : 0 < s.versions.length := List.length_pos.mpr hne
  have hlast_get : s.versions.getLast hne
      = s.versions[s.versions.length - 1] := List.getLast_eq_getElem s.versions hne
  have hlv : (s.versions.getLast hne).version = s.versions.length := by
    rw [hlast_get]
    have h2 := (hshape (s.versions.length - 1) (by omega)).2.1
    omega
  have hwalk : walkChain s.versions (s.versions.getLast hne)
      ((s.versions.getLast hne).version - 1) = s.versions.reverse := by
    rw [hlv, hlast_get]
    have h2 := walkChain_take s.versions hshape (s.versions.length - 1) (by omega)
    rw [h2, show s.versions.length - 1 + 1 = s.versions.length from by omega,
      List.take_length]
  have hmapv : s.versions.map (fun v => v.version)
      = List.range' 1 s.versions.length := by
    refine map_proj_range _ s.versions 1 ?_
    intro i hi
    have h2 := (hshape i hi).2.1
    omega
  have hmapi : s.versions.map (fun v => v.id)
      = List.range' 0 s.versions.length := by
    refine map_proj_range _ s.versions 0 ?_
    intro i hi
    have h2 := (hshape i hi).1
    omega
  refine ⟨?_, ?_, ?_, ?_, ?_, ?_⟩
  · rw [hwalk, hlv]
    simp
  · rw [hwalk, List.map_reverse, hmapv]
  · rw [hwalk, List.map_reverse, hmapi]
    simp [List.nodup_range']
  · rw [hwalk, List.map_reverse, hmapv, List.getLast?_reverse]
    rcases hl : s.versions.length with _ | m
    · omega
    · simp [List.range'_succ]
  · intro v hv p hp
    obtain ⟨i, hi, hveq⟩ := List.mem_iff_getElem.mp hv
    obtain ⟨hid, hver, hprev⟩ := hshape i hi
    rw [← hveq] at hp
    rw [hprev] at hp
    by_cases hz : i = 0
    · simp [hz] at hp
    · simp [hz] at hp
      have hklt : i - 1 < s.versions.length := by omega
      refine ⟨s.versions[i - 1], List.getElem_mem hklt, ?_, ?_⟩
      · rw [(hshape (i - 1) hklt).1, hp]
      · rw [(hshape (i - 1) hklt).2.1, ← hveq, hver]
        omega
  · intro v hv w hw p hpv hpw
    obtain ⟨i, hi, hveq⟩ := List.mem_iff_getElem.mp hv
    obtain ⟨j, hj, hweq⟩ := List.mem_iff_getElem.mp hw
    rw [← hveq] at hpv
    rw [← hweq] at hpw
    rw [(hshape i hi).2.2] at hpv
    rw [(hshape j hj).2.2] at hpw
    by_cases hzi : i = 0
    · simp [hzi] at hpv
    · by_cases hzj : j = 0
      · simp [hzj] at hpw
      · simp [hzi] at hpv
        simp [hzj] at hpw
        have hij : i = j := by omega
        subst hij
        rw [← hveq, ← hweq]

/-- A store built by three sequential `createVersion` calls. -/
def exampleStore : StoreState :=
  createVersion (createVersion (createVersion emptyStore "one") "two") "three"

/-- C5 witness: the chain invariants at a concrete three-version store. -/
theorem C5_witness :
    exampleStore.versions ≠ [] ∧
    (walkChain exampleStore.versions (exampleStore.versions.getLast (by decide))
        ((exampleStore.versions.getLast (by decide)).version - 1)).map
        (fun v => v.version)
      = (List.range' 1 exampleStore.versions.length).reverse :=
  ⟨by decide,
   (C5_chain_invariants exampleStore
     (Reachable.create _ "three" (Reachable.create _ "two"
       (Reachable.create _ "one" Reachable.empty)))
     (by decide)).2.1⟩

/-- C4 (amended): the schema itself does not enforce uniqueness of
    `(documentId, version)` — a table with two distinct rows sharing that
    pair satisfies every declared constraint — and the uniqueness the spec
    demands is instead guaranteed by the Version Store write path, whose
    reachable states never hold two versions with the same version number. -/
theorem C4_uniqueness_is_store_responsibility (s : StoreState)
    (hr : Reachable s) :
    (DocumentVersionTableValid [1] [dupRowA, dupRowB] ∧
     dupRowA.documentId = dupRowB.documentId ∧
     dupRowA.version = dupRowB.version ∧
     dupRowA.id ≠ dupRowB.id) ∧
    (s.versions.map (fun v => v.version)).Nodup := by
  refine ⟨by decide, ?_⟩
  obtain ⟨_, _, _, hshape⟩ := reachable_storeInv s hr
  have hmapv : s.versions.map (fun v => v.version)
      = List.range' 1 s.versions.length := by
    refine map_proj_range _ s.versions 1 ?_
    intro i hi
    have h2 := (hshape i hi).2.1
    omega
  rw [hmapv]
  exact List.nodup_range' 1 s.versions.length

/-- C4 witness: the amended statement at a concrete three-version store. -/
theorem C4_witness :
    (DocumentVersionTableValid [1] [dupRowA, dupRowB] ∧
     dupRowA.documentId = dupRowB.documentId ∧
     dupRowA.version = dupRowB.version ∧
     dupRowA.id ≠ dupRowB.id) ∧
    (exampleStore.versions.map (fun v => v.version)).Nodup :=
  C4_uniqueness_is_store_responsibility exampleStore
    (Reachable.create _ "three" (Reachable.create _ "two"
      (Reachable.create _ "one" Reachable.empty)))

end Saru
